import Mathlib

/-!
# Verification of the obsidian-headless patch engine (`src/main.py`)

This file gives a shallow embedding of the request handlers of
`src/main.py` — the path sandbox `_resolve_safe`, the `create_file`,
`update_file` and `patch_file` endpoints — together with executable models
of the Python string primitives they use (`str.replace`, `str.splitlines`,
`str.strip`, `str.startswith`, substring tests) and of the SHA-256
fingerprint (`hashlib.sha256(...).hexdigest()` over UTF-8 bytes).

Filesystem state is an association list from resolved path components to
file contents, and every handler additionally returns the list of
filesystem operations it performed, so that statements about "no mutation
before an error" and about the shape of the commit step are expressible.

The unified-diff parser/applier used by `patch_file` is the external
`whatthepatch` library; it is modelled here by `parsePatch` / `applyHunks`
with the standard unified-hunk semantics (hunks applied in file order at
their stated old-file offsets, context and deletion lines checked against
the current content, any mismatch failing the whole application).
-/

namespace ObsidianHeadless

abbrev Chars := List Char

/-! ## Python string primitives -/

/-- One step of Python `s.replace("\\n", "\n")`: scan left to right,
replacing each non-overlapping occurrence of backslash-`n` by a newline. -/
def replBSN : Chars → Chars
  | '\\' :: 'n' :: rest => '\n' :: replBSN rest
  | c :: rest => c :: replBSN rest
  | [] => []

/-- Python `"\\n" in s`: does the char list contain backslash followed by `n`? -/
def hasBSN : Chars → Bool
  | '\\' :: 'n' :: _ => true
  | _ :: rest => hasBSN rest
  | [] => false

/-- The diff-text preprocessing of `patch_file` (main.py lines 309-310):
`if "\\n" in diff_text: diff_text = diff_text.replace("\\n", "\n")`. -/
def normalizeDiffText (s : String) : String :=
  if hasBSN s.toList then String.mk (replBSN s.toList) else s

/-- Python `str.splitlines(keepends=True)`, restricted to the terminators
`\n`, `\r\n` and `\r` (the only ones arising for the texts handled here). -/
def pySplitKeepAux : Chars → Chars → List Chars
  | acc, [] => if acc.isEmpty then [] else [acc.reverse]
  | acc, '\r' :: '\n' :: rest => (acc.reverse ++ ['\r', '\n']) :: pySplitKeepAux [] rest
  | acc, '\r' :: rest => (acc.reverse ++ ['\r']) :: pySplitKeepAux [] rest
  | acc, '\n' :: rest => (acc.reverse ++ ['\n']) :: pySplitKeepAux [] rest
  | acc, c :: rest => pySplitKeepAux (c :: acc) rest

def pySplitlinesKeep (s : String) : List String :=
  (pySplitKeepAux [] s.toList).map String.mk

/-- Python `str.splitlines()` (no keepends), same terminator restriction. -/
def pySplitNKAux : Chars → Chars → List Chars
  | acc, [] => if acc.isEmpty then [] else [acc.reverse]
  | acc, '\r' :: '\n' :: rest => acc.reverse :: pySplitNKAux [] rest
  | acc, '\r' :: rest => acc.reverse :: pySplitNKAux [] rest
  | acc, '\n' :: rest => acc.reverse :: pySplitNKAux [] rest
  | acc, c :: rest => pySplitNKAux (c :: acc) rest

def pySplitlines (s : String) : List String :=
  (pySplitNKAux [] s.toList).map String.mk

/-- Python `"\n".join(lines)`. -/
def joinLF : List Chars → Chars
  | [] => []
  | [l] => l
  | l :: ls => l ++ '\n' :: joinLF ls

def strJoinLF (ls : List String) : String :=
  String.mk (joinLF (ls.map String.toList))

/-- Python `s.startswith(pre)`, computed on the
underlying character lists so that it evaluates by kernel reduction. -/
def strStartsWith (s pre : String) : Bool :=
  pre.toList.isPrefixOf s.toList

/-- Python `s[n:]`. -/
def strDrop (s : String) (n : Nat) : String :=
  String.mk (s.toList.drop n)

/-- Python `s.split("/")`. -/
def splitSlashAux : Chars → Chars → List String
  | acc, [] => [String.mk acc.reverse]
  | acc, '/' :: rest => String.mk acc.reverse :: splitSlashAux [] rest
  | acc, c :: rest => splitSlashAux (c :: acc) rest

def pySplitSlash (s : String) : List String :=
  splitSlashAux [] s.toList

/-- Python whitespace characters recognised by `str.strip()`. -/
def isPyWS (c : Char) : Bool :=
  c = ' ' || c = '\t' || c = '\n' || c = '\r' || c = '\x0b' || c = '\x0c'

/-- Python `str.strip()`. -/
def pyStrip (s : String) : String :=
  String.mk (((s.toList.dropWhile isPyWS).reverse.dropWhile isPyWS).reverse)

/-- Does the needle occur as a contiguous subsequence of the haystack? -/
def containsSeq (needle : Chars) : Chars → Bool
  | [] => needle.isEmpty
  | c :: rest => needle.isPrefixOf (c :: rest) || containsSeq needle rest

/-- Python `needle in hay` for strings. -/
def pyContains (hay needle : String) : Bool :=
  containsSeq needle.toList hay.toList

/-! ## Path sandbox (`_resolve_safe`, main.py lines 103-120)

Paths are modelled at the component level: a `pathlib` path is an
`absolute?` flag plus the list of its parts.  Resolution is modelled on a
symlink-free filesystem, so `Path.resolve()` is normalisation of `.`/`..`
segments against an absolute base. -/

structure PyPath where
  absolute : Bool
  comps : List String
deriving Repr, DecidableEq

/-- Parsing `pathlib.Path(s)`: absolute iff the string starts with `/`; empty and
`.` components are dropped at construction, `..` components are kept. -/
def parsePyPath (s : String) : PyPath :=
  ⟨strStartsWith s "/", (pySplitSlash s).filter (fun c => !(c == "") && !(c == "."))⟩

/-- Model of `Path.resolve()` on an absolute component list (symlink-free):
`..` pops a component, `.` and empty components vanish. -/
def resolveComps (cs : List String) : List String :=
  cs.foldl
    (fun acc c =>
      if c = ".." then acc.dropLast
      else if c = "." || c = "" then acc
      else acc ++ [c])
    []

/-- Join `VAULT_PATH / path` of pathlib: an absolute right operand replaces the base. -/
def joinPath (vault : List String) (p : PyPath) : List String :=
  if p.absolute then p.comps else vault ++ p.comps

/-- Model of `_resolve_safe` (main.py lines 103-120): resolve `(VAULT_PATH / path)`,
resolve the vault root, and require `resolved.relative_to(vault_resolved)`
to succeed — in pathlib this succeeds iff the resolved vault root is a
prefix of the resolved path (equality included, yielding `Path(".")`).
Returns the resolved path on success, `none` for the HTTP 400 rejection. -/
def resolveSafe (vault : List String) (p : PyPath) : Option (List String) :=
  let resolved := resolveComps (joinPath vault p)
  let vaultResolved := resolveComps vault
  if vaultResolved.isPrefixOf resolved then some resolved else none

/-! ## Fingerprint service: SHA-256 over UTF-8 bytes
(`hashlib.sha256(new_text.encode("utf-8")).hexdigest()`, main.py line 397)

Machine words are `Nat` values kept below `2^32` by explicit reduction. -/

def w32 (n : Nat) : Nat := n % 4294967296

def rotr (n x : Nat) : Nat := w32 (x / 2 ^ n + x * 2 ^ (32 - n))

def not32 (x : Nat) : Nat := 4294967295 - x

def bsig0 (x : Nat) : Nat := rotr 2 x ^^^ rotr 13 x ^^^ rotr 22 x

def bsig1 (x : Nat) : Nat := rotr 6 x ^^^ rotr 11 x ^^^ rotr 25 x

def ssig0 (x : Nat) : Nat := rotr 7 x ^^^ rotr 18 x ^^^ x / 2 ^ 3

def ssig1 (x : Nat) : Nat := rotr 17 x ^^^ rotr 19 x ^^^ x / 2 ^ 10

def chFn (x y z : Nat) : Nat := (x &&& y) ^^^ (not32 x &&& z)

def majFn (x y z : Nat) : Nat := (x &&& y) ^^^ (x &&& z) ^^^ (y &&& z)

/-- The 64 SHA-256 round constants. -/
def sha256K : List Nat :=
  [1116352408, 1899447441, 3049323471, 3921009573, 961987163, 1508970993,
   2453635748, 2870763221, 3624381080, 310598401, 607225278, 1426881987,
   1925078388, 2162078206, 2614888103, 3248222580, 3835390401, 4022224774,
   264347078, 604807628, 770255983, 1249150122, 1555081692, 1996064986,
   2554220882, 2821834349, 2952996808, 3210313671, 3336571891, 3584528711,
   113926993, 338241895, 666307205, 773529912, 1294757372, 1396182291,
   1695183700, 1986661051, 2177026350, 2456956037, 2730485921, 2820302411,
   3259730800, 3345764771, 3516065817, 3600352804, 4094571909, 275423344,
   430227734, 506948616, 659060556, 883997877, 958139571, 1322822218,
   1537002063, 1747873779, 1955562222, 2024104815, 2227730452, 2361852424,
   2428436474, 2756734187, 3204031479, 3329325298]

structure Sha256State where
  a : Nat
  b : Nat
  c : Nat
  d : Nat
  e : Nat
  f : Nat
  g : Nat
  h : Nat
deriving Repr, DecidableEq

def sha256H0 : Sha256State :=
  ⟨1779033703, 3144134277, 1013904242, 2773480762,
   1359893119, 2600822924, 528734635, 1541459225⟩

/-- Big-endian bytes of `n`, `k` bytes wide. -/
def toBytesBE (k n : Nat) : List Nat :=
  (List.range k).reverse.map (fun i => n / 2 ^ (8 * i) % 256)

/-- SHA-256 message padding: `0x80`, zeros to 56 mod 64, 8-byte bit length. -/
def sha256Pad (msg : List Nat) : List Nat :=
  msg ++ 128 :: List.replicate ((119 - msg.length % 64) % 64) 0
      ++ toBytesBE 8 (8 * msg.length)

/-- Split into chunks: `cap` is the remaining capacity of the current
chunk, `acc` its elements in reverse.  Structural in the list, so that it
evaluates by kernel reduction. -/
def chunksGo (n : Nat) : List Nat → Nat → List Nat → List (List Nat)
  | [], _, acc => if acc.isEmpty then [] else [acc.reverse]
  | x :: xs, 0, acc => acc.reverse :: chunksGo n xs (n - 1) [x]
  | x :: xs, cap + 1, acc => chunksGo n xs cap (x :: acc)

/-- The list split into consecutive chunks of `n` elements. -/
def chunksOf (n : Nat) (xs : List Nat) : List (List Nat) :=
  chunksGo n xs n []

/-- Extend the 16 words of a block to the 64-entry message schedule. -/
def extendW (block : List Nat) : List Nat :=
  (List.range 48).foldl
    (fun ws i =>
      let j := i + 16
      ws ++ [w32 (ssig1 (ws.getD (j - 2) 0) + ws.getD (j - 7) 0
                  + ssig0 (ws.getD (j - 15) 0) + ws.getD (j - 16) 0)])
    block

def sha256Round (st : Sha256State) (kw : Nat × Nat) : Sha256State :=
  let t1 := w32 (st.h + bsig1 st.e + chFn st.e st.f st.g + kw.1 + kw.2)
  let t2 := w32 (bsig0 st.a + majFn st.a st.b st.c)
  ⟨w32 (t1 + t2), st.a, st.b, st.c, w32 (st.d + t1), st.e, st.f, st.g⟩

def sha256Compress (h : Sha256State) (block : List Nat) : Sha256State :=
  let st := (sha256K.zip (extendW block)).foldl sha256Round h
  ⟨w32 (h.a + st.a), w32 (h.b + st.b), w32 (h.c + st.c), w32 (h.d + st.d),
   w32 (h.e + st.e), w32 (h.f + st.f), w32 (h.g + st.g), w32 (h.h + st.h)⟩

def bytesToWordsBE (block : List Nat) : List Nat :=
  (chunksOf 4 block).map (fun bs => bs.foldl (fun a b => a * 256 + b) 0)

def sha256Run (msg : List Nat) : Sha256State :=
  (chunksOf 64 (sha256Pad msg)).foldl
    (fun h block => sha256Compress h (bytesToWordsBE block)) sha256H0

def hexDigit (n : Nat) : Char :=
  "0123456789abcdef".toList.getD n '0'

def wordToHex (x : Nat) : String :=
  String.mk ((List.range 8).reverse.map (fun i => hexDigit (x / 16 ^ i % 16)))

def sha256hex (msg : List Nat) : String :=
  let r := sha256Run msg
  wordToHex r.a ++ wordToHex r.b ++ wordToHex r.c ++ wordToHex r.d
    ++ wordToHex r.e ++ wordToHex r.f ++ wordToHex r.g ++ wordToHex r.h

/-- UTF-8 encoding of a character (as byte values). -/
def utf8Char (c : Char) : List Nat :=
  let u := c.toNat
  if u < 128 then [u]
  else if u < 2048 then [192 + u / 64, 128 + u % 64]
  else if u < 65536 then [224 + u / 4096, 128 + u / 64 % 64, 128 + u % 64]
  else [240 + u / 262144, 128 + u / 4096 % 64, 128 + u / 64 % 64, 128 + u % 64]

def utf8Bytes (s : String) : List Nat :=
  (s.toList.map utf8Char).flatten

/-- Python `hashlib.sha256(s.encode("utf-8")).hexdigest()`. -/
def sha256OfString (s : String) : String :=
  sha256hex (utf8Bytes s)

/-! ## Filesystem model

The vault filesystem is an association list from resolved path components
to file text.  Handlers also report the filesystem operations they
performed, in order, so that mutation-freedom of error paths and the shape
of the commit step are first-class statements. -/

/-- Filesystem: resolved path components ↦ file content. -/
abbrev FS := List (List String × String)

/-- Content of the file at `p`, if present (`is_file` / `read_text`). -/
def FS.lookup : FS → List String → Option String
  | [], _ => none
  | e :: rest, p => if e.1 == p then some e.2 else FS.lookup rest p

/-- Model of `write_text`: update the file at `p`, or create it. -/
def FS.write : FS → List String → String → FS
  | [], p, c => [(p, c)]
  | e :: rest, p, c =>
    if e.1 == p then (p, c) :: rest else e :: FS.write rest p c

/-- Filesystem operations a handler can perform. `statOp` covers the
`is_file()` / `exists()` metadata checks, `readOp` is `read_text`,
`writeOp` is `write_text`; `renameOp` is the atomic `Path.replace`
(never emitted by the handlers modelled here, but needed to state the
durable-writer claim). -/
inductive FsOp
  | statOp (p : List String)
  | readOp (p : List String)
  | writeOp (p : List String) (content : String)
  | renameOp (src tgt : List String)
deriving Repr, DecidableEq

def FsOp.isMutation : FsOp → Bool
  | .writeOp _ _ => true
  | .renameOp _ _ => true
  | _ => false

/-- Error taxonomy of the handlers.  Each constructor corresponds to one
`HTTPException` site in main.py, except `conflict`, which is the spec's
Conflict error — stated here so that claims about it are expressible; no
handler ever produces it. -/
inductive ApiError
  | invalidPath      -- 400 "Invalid file path" (_resolve_safe)
  | notFound         -- 404 "File not found"
  | emptyContent     -- 400 "Empty content provided" (create_file)
  | alreadyExists    -- 400 "File already exists" (create_file)
  | emptyDiff        -- 400 "Empty diff" (patch_file)
  | missingHeaders   -- 400 "Invalid diff format: missing headers"
  | wrongTarget      -- 400 "Diff targets different file"
  | invalidFormat    -- 400 "Invalid diff format" (parse produced no patch)
  | applyFailed      -- 400 "Failed to apply patch: ..."
  | conflict         -- the spec's Conflict error; unreachable in the code
deriving Repr, DecidableEq

/-! ## Unified diff parsing and application

`patch_file` delegates parsing and application to the external
`whatthepatch` library.  The model below implements the standard
unified-hunk semantics that library provides: hunks are read off the
`@@ -oldStart[,oldCount] +newStart[,newCount] @@` markers together with
their ` `/`-`/`+` body lines, and application walks the old lines in
order, checking every context and deletion line against the file content
and failing on any mismatch. -/

inductive DiffTag
  | ctx
  | del
  | ins
deriving Repr, DecidableEq

structure HunkLine where
  tag : DiffTag
  text : String
deriving Repr, DecidableEq

structure Hunk where
  oldStart : Nat
  lines : List HunkLine
deriving Repr, DecidableEq

def takeDigits (cs : Chars) : Chars × Chars :=
  (cs.takeWhile Char.isDigit, cs.dropWhile Char.isDigit)

def digitsToNat (ds : Chars) : Nat :=
  ds.foldl (fun n c => 10 * n + (c.toNat - 48)) 0

/-- Parse a `@@ -a[,b] +c[,d] @@` hunk header, returning
`(oldStart, oldCount, newStart, newCount)`. -/
def parseHunkHeader (line : String) : Option (Nat × Nat × Nat × Nat) :=
  match line.toList with
  | '@' :: '@' :: ' ' :: '-' :: r0 =>
    let (d1, r1) := takeDigits r0
    if d1.isEmpty then none
    else
      let (oldCount, r2) :=
        match r1 with
        | ',' :: r => let (d2, r') := takeDigits r; (digitsToNat d2, r')
        | _ => (1, r1)
      match r2 with
      | ' ' :: '+' :: r3 =>
        let (d3, r4) := takeDigits r3
        if d3.isEmpty then none
        else
          let (newCount, r5) :=
            match r4 with
            | ',' :: r => let (d4, r') := takeDigits r; (digitsToNat d4, r')
            | _ => (1, r4)
          match r5 with
          | ' ' :: '@' :: '@' :: _ =>
            some (digitsToNat d1, oldCount, digitsToNat d3, newCount)
          | _ => none
      | _ => none
  | _ => none

/-- Collect the hunks of a unified diff from its (terminator-free) lines.
Before the first hunk header all lines (file headers in particular) are
skipped; inside a hunk, ` `/`+`/`-` lines extend it, a `\`-marker line
(`\ No newline at end of file`) is ignored, and any other line ends it. -/
def parseHunksAux : List String → Option Hunk → List Hunk → List Hunk
  | [], cur, acc => acc ++ cur.toList
  | l :: rest, cur, acc =>
    match parseHunkHeader l with
    | some (os, _, _, _) => parseHunksAux rest (some ⟨os, []⟩) (acc ++ cur.toList)
    | none =>
      match cur with
      | none => parseHunksAux rest none acc
      | some h =>
        if strStartsWith l " " then
          parseHunksAux rest (some ⟨h.oldStart, h.lines ++ [⟨.ctx, strDrop l 1⟩]⟩) acc
        else if strStartsWith l "+" then
          parseHunksAux rest (some ⟨h.oldStart, h.lines ++ [⟨.ins, strDrop l 1⟩]⟩) acc
        else if strStartsWith l "-" then
          parseHunksAux rest (some ⟨h.oldStart, h.lines ++ [⟨.del, strDrop l 1⟩]⟩) acc
        else if strStartsWith l "\\" then
          parseHunksAux rest (some h) acc
        else
          parseHunksAux rest none (acc ++ [h])

/-- Model of `next(whatthepatch.parse_patch(text), None)`: the hunks of the diff,
or `none` when the text contains nothing parseable as a hunk. -/
def parsePatch (s : String) : Option (List Hunk) :=
  let hs := parseHunksAux (pySplitlines s) none []
  if hs.isEmpty then none else some hs

/-- Apply the body lines of one hunk starting at old-line index `pos`
(0-based).  Context and deletion lines must equal the current old line. -/
def applyHunkLines :
    List HunkLine → List String → Nat → List String → Option (Nat × List String)
  | [], _, pos, acc => some (pos, acc)
  | ⟨.ctx, t⟩ :: rest, old, pos, acc =>
    (old.get? pos).bind fun l =>
      if l = t then applyHunkLines rest old (pos + 1) (acc ++ [t]) else none
  | ⟨.del, t⟩ :: rest, old, pos, acc =>
    (old.get? pos).bind fun l =>
      if l = t then applyHunkLines rest old (pos + 1) acc else none
  | ⟨.ins, t⟩ :: rest, old, pos, acc => applyHunkLines rest old pos (acc ++ [t])

/-- Model of `whatthepatch.apply_diff`: apply hunks in file order against the old
lines, copying the unchanged spans between them. -/
def applyHunks (hunks : List Hunk) (old : List String) : Option (List String) :=
  (hunks.foldl
      (fun st h =>
        st.bind fun pa =>
          let hstart := h.oldStart - 1
          if hstart < pa.1 then none
          else applyHunkLines h.lines old hstart
                 (pa.2 ++ ((old.drop pa.1).take (hstart - pa.1))))
      (some (0, []))).map
    fun pa => pa.2 ++ old.drop pa.1

/-! ## Request handlers -/

/-- Pydantic model `CreateFileRequest` (main.py lines 54-61). -/
structure CreateFileRequest where
  path : String
  content : String
deriving Repr, DecidableEq

/-- Pydantic model `UpdateFileRequest` (main.py lines 64-71): only `path`
and `content` are declared — there is no fingerprint field. -/
structure UpdateFileRequest where
  path : String
  content : String
deriving Repr, DecidableEq

/-- An update request as a client may send it on the wire, including an
optional `expectedFingerprint` member in the JSON body. -/
structure UpdateWireRequest where
  path : String
  content : String
  expectedFingerprint : Option String
deriving Repr, DecidableEq

/-- FastAPI body validation against `UpdateFileRequest`: pydantic ignores
JSON members that the model does not declare, so any supplied
`expectedFingerprint` is discarded. -/
def parseUpdateWire (w : UpdateWireRequest) : UpdateFileRequest :=
  ⟨w.path, w.content⟩

/-- Pydantic model `PatchFileRequest` (main.py lines 74-82). -/
structure PatchFileRequest where
  path : String
  diff : String
deriving Repr, DecidableEq

structure MessageOk where
  message : String
deriving Repr, DecidableEq

/-- Successful `patch_file` response: the JSON body fields and the `ETag`
response header (main.py lines 398-401). -/
structure PatchOk where
  message : String
  etag : String
  content : String
  etagHeader : String
deriving Repr, DecidableEq

/-- A handler outcome: response or error, the filesystem afterwards, and
the filesystem operations performed, in order. -/
abbrev Outcome (α : Type) := Except ApiError α × FS × List FsOp

/-- Model of `create_file` (main.py lines 207-241): sandbox, empty-content check,
exists check, then a direct `write_text`. -/
def createFile (vault : List String) (fs : FS) (req : CreateFileRequest) :
    Outcome MessageOk :=
  match resolveSafe vault (parsePyPath req.path) with
  | none => (.error .invalidPath, fs, [])
  | some resolved =>
    if req.content = "" then (.error .emptyContent, fs, [])
    else
      match fs.lookup resolved with
      | some _ => (.error .alreadyExists, fs, [.statOp resolved])
      | none =>
        (.ok ⟨"File created successfully"⟩,
         fs.write resolved req.content,
         [.statOp resolved, .writeOp resolved req.content])

/-- Model of `update_file` (main.py lines 244-271): sandbox, `is_file` check, then
an unconditional `write_text` of the supplied content. -/
def updateFileCore (vault : List String) (fs : FS) (req : UpdateFileRequest) :
    Outcome MessageOk :=
  match resolveSafe vault (parsePyPath req.path) with
  | none => (.error .invalidPath, fs, [])
  | some resolved =>
    match fs.lookup resolved with
    | none => (.error .notFound, fs, [.statOp resolved])
    | some _ =>
      (.ok ⟨"File updated successfully"⟩,
       fs.write resolved req.content,
       [.statOp resolved, .writeOp resolved req.content])

/-- The PUT /files endpoint as seen from the wire: body validation
followed by `update_file`. -/
def updateFile (vault : List String) (fs : FS) (w : UpdateWireRequest) :
    Outcome MessageOk :=
  updateFileCore vault fs (parseUpdateWire w)

/-- The header scan of `patch_file` (main.py lines 318-326): walk the
diff lines, reporting a `--- `/`+++ ` line seen before the first `@@`
line (the loop breaks at the first hunk marker). -/
def hasHeadersUpToHunk : List String → Bool
  | [] => false
  | l :: rest =>
    if strStartsWith l "--- " || strStartsWith l "+++ " then true
    else if strStartsWith l "@@" then false
    else hasHeadersUpToHunk rest

/-- Target-file extraction (main.py lines 342-347): the first `+++ ` line,
with `line[4:].strip()` applied. -/
def extractTarget : List String → Option String
  | [] => none
  | l :: rest =>
    if strStartsWith l "+++ " then some (pyStrip (strDrop l 4)) else extractTarget rest

/-- Python `file_path.split("/")[-1]`. -/
def basename (path : String) : String :=
  (pySplitSlash path).getLastD path

/-- The "diff targets different file" rejection (main.py lines 349-359):
only fires when a non-empty extracted target differs from `"b/" + path`
and from `"b/" + basename`, **and** additionally contains the substring
`"other.md"` or `"different.md"`. -/
def wrongTargetRejected (diffLines : List String) (path : String) : Bool :=
  match extractTarget diffLines with
  | some t =>
    !(t == "") && !(t == "b/" ++ path) && !(t == "b/" ++ basename path)
      && (pyContains t "other.md" || pyContains t "different.md")
  | none => false

/-- Model of `patch_file` (main.py lines 281-401): sandbox, `is_file` check, empty
diff check, `read_text`, backslash-n normalisation, header validation,
target-file check, parse, apply, join with LF plus a trailing LF, direct
`write_text`, and the SHA-256 etag in body and header. -/
def patchFile (vault : List String) (fs : FS) (req : PatchFileRequest) :
    Outcome PatchOk :=
  match resolveSafe vault (parsePyPath req.path) with
  | none => (.error .invalidPath, fs, [])
  | some resolved =>
    match fs.lookup resolved with
    | none => (.error .notFound, fs, [.statOp resolved])
    | some originalText =>
      if req.diff = "" then (.error .emptyDiff, fs, [.statOp resolved])
      else
        let pre : List FsOp := [.statOp resolved, .readOp resolved]
        let diffText := normalizeDiffText req.diff
        let diffLines := pySplitlinesKeep diffText
        let hasHeaders := hasHeadersUpToHunk diffLines
        let hasHunk := diffLines.any (fun l => strStartsWith l "@@")
        if !hasHeaders && hasHunk then (.error .missingHeaders, fs, pre)
        else if wrongTargetRejected diffLines req.path then
          (.error .wrongTarget, fs, pre)
        else if !hasHeaders && !hasHunk then (.error .missingHeaders, fs, pre)
        else
          match parsePatch diffText with
          | none => (.error .invalidFormat, fs, pre)
          | some hunks =>
            match applyHunks hunks (pySplitlines originalText) with
            | none => (.error .applyFailed, fs, pre)
            | some ls =>
              let newText := strJoinLF ls ++ "\n"
              (.ok ⟨"patched", sha256OfString newText, newText, sha256OfString newText⟩,
               fs.write resolved newText,
               pre ++ [.writeOp resolved newText])

/-! ## Spec-side definitions

The definitions below do not model `src/main.py`; they state, in
executable form, properties that the specification asserts about it, for
comparison against the implementation model above. -/

/-- A zero-context unified diff produced from `(old, new)`: one hunk that
deletes every old line and inserts every new line, with the conventional
`a/`-`b/` file headers for `path`. -/
def makeUnifiedDiff (path old new : String) : String :=
  let ol := pySplitlines old
  let nl := pySplitlines new
  "--- a/" ++ path ++ "\n+++ b/" ++ path ++ "\n@@ -1," ++ Nat.repr ol.length
    ++ " +1," ++ Nat.repr nl.length ++ " @@\n"
    ++ String.join (ol.map (fun l => "-" ++ l ++ "\n"))
    ++ String.join (nl.map (fun l => "+" ++ l ++ "\n"))

/-- The hunk encoded by `makeUnifiedDiff`: delete all old lines, insert
all new lines, starting at line 1. -/
def mkReplaceHunk (ol nl : List String) : Hunk :=
  ⟨1, ol.map (fun l => ⟨.del, l⟩) ++ nl.map (fun l => ⟨.ins, l⟩)⟩

/-- Predicate for "the payload already parses correctly": it passes the header
validation of `patch_file` and `whatthepatch` finds a patch in it. -/
def parsesOK (s : String) : Bool :=
  hasHeadersUpToHunk (pySplitlinesKeep s) && (parsePatch s).isSome

/-- The durable-writer commit pattern asserted by the spec: the full new
content is first written to a temporary file in the same directory as the
target, which is then renamed onto the target path. -/
def atomicReplacePattern (target : List String) (content : String)
    (tr : List FsOp) : Prop :=
  ∃ tmp pre, tmp ≠ target ∧ tmp.dropLast = target.dropLast ∧
    tr = pre ++ [.writeOp tmp content, .renameOp tmp target]

/-- Modelled from the spec: the four-step delta normalisation that the
spec attributes to the code (step 1: CRLF → LF). -/
def replCRLF : Chars → Chars
  | '\r' :: '\n' :: rest => '\n' :: replCRLF rest
  | c :: rest => c :: replCRLF rest
  | [] => []

/-- Insert a newline before each occurrence of the two-character marker
`a`,`b` (spec step 3 for one marker). -/
def insertNLBefore (a b : Char) : Chars → Chars
  | [] => []
  | [c] => [c]
  | c :: d :: rest =>
    if c == a && d == b then '\n' :: c :: d :: insertNLBefore a b rest
    else c :: insertNLBefore a b (d :: rest)

/-- Spec step 3: split a newline-free payload at the recognised
line-prefix markers, two-space context marker first, then `+ `, `- `, `? `. -/
def markerSplit (cs : Chars) : Chars :=
  insertNLBefore '?' ' '
    (insertNLBefore '-' ' '
      (insertNLBefore '+' ' '
        (insertNLBefore ' ' ' ' cs)))

/-- The delta normalisation pipeline exactly as the specification
describes it: (1) CRLF → LF, (2) replace backslash-n when present,
(3) marker-split a payload still containing no newline, (4) terminate
every resulting line with a newline. -/
def specNormalizeC9 (s : String) : String :=
  let s1 := replCRLF s.toList
  let s2 := if hasBSN s1 then replBSN s1 else s1
  let s3 := if s2.contains '\n' then s2 else markerSplit s2
  let lines := pySplitKeepAux [] s3
  String.mk
    ((lines.map (fun l => if l.getLast? = some '\n' then l else l ++ ['\n'])).flatten)

/-! ## Lemmas about the primitives -/

lemma replBSN_of_not_hasBSN : ∀ {cs : Chars}, hasBSN cs = false → replBSN cs = cs := by
  intro cs
  induction cs using replBSN.induct with
  | case1 rest ih =>
    intro h
    rw [show hasBSN ('\\' :: 'n' :: rest) = true from rfl] at h
    exact Bool.noConfusion h
  | case2 c rest hg ih =>
    intro h
    rw [hasBSN.eq_2 c rest hg] at h
    rw [replBSN.eq_2 c rest hg, ih h]
  | case3 => intro _; rfl

lemma replBSN_head? :
    ∀ {cs : Chars}, cs.head? ≠ some 'n' → (replBSN cs).head? ≠ some 'n' := by
  intro cs
  induction cs using replBSN.induct with
  | case1 rest ih => intro _; rw [replBSN.eq_1]; simp
  | case2 c rest hg ih => intro h; rw [replBSN.eq_2 c rest hg]; simpa using h
  | case3 => intro h; exact h

lemma hasBSN_replBSN : ∀ (cs : Chars), hasBSN (replBSN cs) = false := by
  intro cs
  induction cs using replBSN.induct with
  | case1 rest ih =>
    rw [replBSN.eq_1]
    rw [hasBSN.eq_2]
    · exact ih
    · intro r h1 _; exact absurd h1 (by decide)
  | case2 c rest hg ih =>
    rw [replBSN.eq_2 c rest hg]
    rw [hasBSN.eq_2]
    · exact ih
    · intro r hc hrest
      have hrh : rest.head? ≠ some 'n' := by
        intro hr
        cases rest with
        | nil => simp at hr
        | cons d tl =>
          simp only [List.head?] at hr
          injection hr with hd
          exact hg tl hc (by rw [hd])
      exact replBSN_head? hrh (by rw [hrest]; rfl)
  | case3 => rfl

lemma replBSN_idem (cs : Chars) : replBSN (replBSN cs) = replBSN cs :=
  replBSN_of_not_hasBSN (hasBSN_replBSN cs)

lemma mem_replBSN_cr : ∀ (cs : Chars), '\r' ∈ replBSN cs ↔ '\r' ∈ cs := by
  intro cs
  induction cs using replBSN.induct with
  | case1 rest ih =>
    rw [replBSN.eq_1]
    simp only [List.mem_cons]
    rw [ih]
    constructor
    · rintro (h | h)
      · exact absurd h (by decide)
      · exact Or.inr (Or.inr h)
    · rintro (h | h | h)
      · exact absurd h (by decide)
      · exact absurd h (by decide)
      · exact Or.inr h
  | case2 c rest hg ih =>
    rw [replBSN.eq_2 c rest hg]
    simp only [List.mem_cons]
    rw [ih]
  | case3 => rw [replBSN.eq_3]

lemma normalizeDiffText_eq_replBSN (s : String) :
    normalizeDiffText s = String.mk (replBSN s.toList) := by
  unfold normalizeDiffText
  by_cases h : hasBSN s.toList
  · rw [if_pos h]
  · rw [if_neg (by simpa using h), replBSN_of_not_hasBSN (by simpa using h)]
    rfl

lemma normalizeDiffText_of_not_hasBSN {s : String} (h : hasBSN s.toList = false) :
    normalizeDiffText s = s := by
  unfold normalizeDiffText
  rw [h]
  simp

/-- The filesystem after `write` holds the written content at the path. -/
lemma FS.lookup_write_self (fs : FS) (p : List String) (c : String) :
    FS.lookup (fs.write p c) p = some c := by
  induction fs with
  | nil => simp [FS.write, FS.lookup]
  | cons e rest ih =>
    rw [FS.write]
    by_cases h : e.1 == p
    · rw [if_pos h, FS.lookup, if_pos (by simp)]
    · rw [if_neg h, FS.lookup, if_neg h, ih]

lemma getLast?_append_pair {α : Type} (pre : List α) (a b : α) :
    (pre ++ [a, b]).getLast? = some b := by
  rw [List.getLast?_append]
  rfl

/-- Boolean prefix test agrees with the prefix relation. -/
lemma isPrefixOf_true_iff : ∀ (l₁ l₂ : List String),
    l₁.isPrefixOf l₂ = true ↔ l₁ <+: l₂ := by
  intro l₁
  induction l₁ with
  | nil =>
    intro l₂
    constructor
    · intro _; exact ⟨l₂, rfl⟩
    · intro _; simp [List.isPrefixOf]
  | cons a t ih =>
    intro l₂
    cases l₂ with
    | nil =>
      constructor
      · intro h; exact absurd h (by simp [List.isPrefixOf])
      · rintro ⟨s, hs⟩; exact List.noConfusion hs
    | cons b u =>
      show (a == b && t.isPrefixOf u) = true ↔ _
      constructor
      · intro h
        rcases Bool.and_eq_true _ _ |>.mp h with ⟨hab, htu⟩
        obtain ⟨s, hs⟩ := (ih u).mp htu
        exact ⟨s, by rw [beq_iff_eq.mp hab, List.cons_append, hs]⟩
      · rintro ⟨s, hs⟩
        rw [List.cons_append] at hs
        injection hs with hab htu
        apply Bool.and_eq_true _ _ |>.mpr
        exact ⟨beq_iff_eq.mpr hab, (ih u).mpr ⟨s, htu⟩⟩

/-- The hex digest always has 64 characters. -/
lemma wordToHex_length (x : Nat) : (wordToHex x).length = 8 := by
  simp [wordToHex, String.length]

lemma sha256hex_length (msg : List Nat) : (sha256hex msg).length = 64 := by
  simp [sha256hex, String.length_append, wordToHex_length]

lemma sha256OfString_length (s : String) : (sha256OfString s).length = 64 :=
  sha256hex_length _

/-! ## Splitting into lines and joining with LF -/

lemma pySplitNKAux_ne_nil :
    ∀ (cs acc : Chars), acc ≠ [] ∨ cs ≠ [] → pySplitNKAux acc cs ≠ [] := by
  intro cs
  induction cs with
  | nil =>
    intro acc h
    rcases h with h | h
    · rw [pySplitNKAux.eq_1]
      intro hem
      rw [if_neg (by simpa using h)] at hem
      exact List.noConfusion hem
    · exact absurd rfl h
  | cons c rest ih =>
    intro acc _
    by_cases hc : c = '\r'
    · subst hc
      cases rest with
      | nil =>
        rw [pySplitNKAux.eq_3 acc [] (fun r hr => List.noConfusion hr)]
        simp
      | cons d tl =>
        by_cases hd : d = '\n'
        · subst hd; rw [pySplitNKAux.eq_2]; simp
        · rw [pySplitNKAux.eq_3 acc (d :: tl) (fun r hr => hd (by injection hr))]
          simp
    · by_cases hn : c = '\n'
      · subst hn; rw [pySplitNKAux.eq_4]; simp
      · rw [pySplitNKAux.eq_5 acc c rest (fun r h1 _ => hc h1) hc hn]
        exact ih (c :: acc) (Or.inl (by simp))

/-- Splitting `cs` at its line terminators and re-joining with LF, then
appending a final LF, recovers `cs` — provided `cs` is CR-free and ends
with a newline. -/
lemma joinLF_pySplitNKAux :
    ∀ (cs acc : Chars), '\r' ∉ cs → cs.getLast? = some '\n' →
      joinLF (pySplitNKAux acc cs) ++ ['\n'] = acc.reverse ++ cs := by
  intro cs
  induction cs with
  | nil => intro acc _ hl; simp at hl
  | cons c rest ih =>
    intro acc hr hl
    by_cases hc : c = '\n'
    · subst hc
      rw [pySplitNKAux.eq_4]
      cases rest with
      | nil =>
        rw [show pySplitNKAux [] ([] : Chars) = [] from rfl, joinLF.eq_2]
      | cons d tl =>
        have hl' : (d :: tl).getLast? = some '\n' := by
          rw [List.getLast?_cons_cons] at hl; exact hl
        have hr' : '\r' ∉ d :: tl := fun h => hr (List.mem_cons_of_mem _ h)
        rw [joinLF.eq_3 _ _ (fun h => pySplitNKAux_ne_nil (d :: tl) []
              (Or.inr (by simp)) h)]
        have hih := ih [] hr' hl'
        simp only [List.reverse_nil, List.nil_append] at hih
        rw [List.append_assoc, List.cons_append, hih]
    · have hcr : c ≠ '\r' := by rintro rfl; exact hr (List.mem_cons_self _ _)
      have hrest : rest ≠ [] := by
        rintro rfl
        rw [show ([c] : Chars).getLast? = some c from rfl] at hl
        exact hc (by injection hl)
      rw [pySplitNKAux.eq_5 acc c rest
            (fun r h1 _ => hcr h1) (fun h => hcr h) (fun h => hc h)]
      have hl' : rest.getLast? = some '\n' := by
        cases rest with
        | nil => exact absurd rfl hrest
        | cons d tl => rw [List.getLast?_cons_cons] at hl; exact hl
      have hr' : '\r' ∉ rest := fun h => hr (List.mem_cons_of_mem _ h)
      rw [ih (c :: acc) hr' hl']
      simp

/-- String-level corollary: for a CR-free text ending in LF, the
`"\n".join` of its `splitlines()` plus a trailing LF is the text itself. -/
lemma strJoinLF_pySplitlines (s : String) (hr : '\r' ∉ s.toList)
    (hl : s.toList.getLast? = some '\n') :
    strJoinLF (pySplitlines s) ++ "\n" = s := by
  apply String.ext
  rw [String.data_append]
  show joinLF ((pySplitlines s).map String.toList) ++ ['\n'] = s.data
  have hmaps : (pySplitlines s).map String.toList = pySplitNKAux [] s.toList := by
    unfold pySplitlines
    rw [List.map_map, show String.toList ∘ String.mk = id from funext (fun _ => rfl),
      List.map_id]
  rw [hmaps]
  have := joinLF_pySplitNKAux s.toList [] hr hl
  simpa using this

/-! ## Hunk application lemmas -/

lemma applyHunkLines_dels (ol : List String) :
    ∀ (tl old : List String) (pos : Nat) (acc : List String)
      (_ : old.drop pos = ol ++ tl) (rest' : List HunkLine),
      applyHunkLines (ol.map (fun l => (⟨.del, l⟩ : HunkLine)) ++ rest') old pos acc =
        applyHunkLines rest' old (pos + ol.length) acc := by
  induction ol with
  | nil => intro tl old pos acc h rest'; simp
  | cons a atl ih =>
    intro tl old pos acc h rest'
    have hget : old.get? pos = some a := by
      rw [List.get?_eq_getElem?, ← List.head?_drop, h]
      rfl
    rw [List.map_cons, List.cons_append, applyHunkLines.eq_3, hget, Option.some_bind]
    have h' : old.drop (pos + 1) = atl ++ tl := by
      rw [← List.drop_drop, h]
      rfl
    rw [if_pos rfl, ih tl old (pos + 1) acc h' rest']
    have harith : pos + 1 + atl.length = pos + (a :: atl).length := by
      simp only [List.length_cons]; omega
    rw [harith]

lemma applyHunkLines_inss (nl : List String) :
    ∀ (old : List String) (pos : Nat) (acc : List String),
      applyHunkLines (nl.map (fun l => (⟨.ins, l⟩ : HunkLine))) old pos acc =
        some (pos, acc ++ nl) := by
  induction nl with
  | nil => intro old pos acc; simp [applyHunkLines]
  | cons a atl ih =>
    intro old pos acc
    rw [List.map_cons, applyHunkLines.eq_4, ih]
    simp

/-- One replace-everything hunk transforms exactly `ol` into `nl`. -/
lemma applyHunks_mkReplaceHunk (ol nl : List String) :
    applyHunks [mkReplaceHunk ol nl] ol = some nl := by
  unfold applyHunks mkReplaceHunk
  simp only [List.foldl_cons, List.foldl_nil, Option.some_bind]
  rw [show (1 : Nat) - 1 = 0 from rfl]
  simp only [lt_self_iff_false, if_false]
  rw [applyHunkLines_dels ol [] ol 0 _ (by simp) _]
  rw [applyHunkLines_inss]
  simp [List.drop_length]

/-! ## Characterisation of `patch_file` runs -/

/-- Every run of `patch_file` either fails — leaving the filesystem
unchanged, with no mutating operation performed — or succeeds, having
parsed and applied the (normalised) diff to the file's current content and
written the LF-joined result plus a trailing LF directly to the resolved
target path. -/
lemma patchFile_cases (vault : List String) (fs : FS) (req : PatchFileRequest) :
    (∃ e, (patchFile vault fs req).1 = .error e ∧
      (patchFile vault fs req).2.1 = fs ∧
      ∀ op ∈ (patchFile vault fs req).2.2, op.isMutation = false) ∨
    (∃ r orig hunks ls,
      resolveSafe vault (parsePyPath req.path) = some r ∧
      FS.lookup fs r = some orig ∧
      parsePatch (normalizeDiffText req.diff) = some hunks ∧
      applyHunks hunks (pySplitlines orig) = some ls ∧
      patchFile vault fs req =
        (.ok ⟨"patched", sha256OfString (strJoinLF ls ++ "\n"), strJoinLF ls ++ "\n",
            sha256OfString (strJoinLF ls ++ "\n")⟩,
         fs.write r (strJoinLF ls ++ "\n"),
         [.statOp r, .readOp r, .writeOp r (strJoinLF ls ++ "\n")])) := by
  cases h1 : resolveSafe vault (parsePyPath req.path) with
  | none =>
    left
    refine ⟨.invalidPath, ?_, ?_, ?_⟩ <;> simp [patchFile, h1]
  | some r =>
    cases h2 : FS.lookup fs r with
    | none =>
      left
      refine ⟨.notFound, ?_, ?_, ?_⟩ <;> simp [patchFile, h1, h2, FsOp.isMutation]
    | some orig =>
      by_cases h3 : req.diff = ""
      · left
        refine ⟨.emptyDiff, ?_, ?_, ?_⟩ <;>
          simp [patchFile, h1, h2, h3, FsOp.isMutation]
      · by_cases h4 :
          (!hasHeadersUpToHunk (pySplitlinesKeep (normalizeDiffText req.diff)) &&
            (pySplitlinesKeep (normalizeDiffText req.diff)).any
              (fun l => strStartsWith l "@@")) = true
        · left
          refine ⟨.missingHeaders, ?_, ?_, ?_⟩ <;>
            simp [patchFile, h1, h2, h3, h4, FsOp.isMutation]
        · by_cases h5 :
            wrongTargetRejected (pySplitlinesKeep (normalizeDiffText req.diff))
              req.path = true
          · left
            refine ⟨.wrongTarget, ?_, ?_, ?_⟩ <;>
              simp [patchFile, h1, h2, h3, h4, h5, FsOp.isMutation]
          · by_cases h6 :
              (!hasHeadersUpToHunk (pySplitlinesKeep (normalizeDiffText req.diff)) &&
                !(pySplitlinesKeep (normalizeDiffText req.diff)).any
                  (fun l => strStartsWith l "@@")) = true
            · left
              refine ⟨.missingHeaders, ?_, ?_, ?_⟩ <;>
                simp [patchFile, h1, h2, h3, h4, h5, h6, FsOp.isMutation]
            · cases h7 : parsePatch (normalizeDiffText req.diff) with
              | none =>
                left
                refine ⟨.invalidFormat, ?_, ?_, ?_⟩ <;>
                  simp [patchFile, h1, h2, h3, h4, h5, h6, h7, FsOp.isMutation]
              | some hunks =>
                cases h8 : applyHunks hunks (pySplitlines orig) with
                | none =>
                  left
                  refine ⟨.applyFailed, ?_, ?_, ?_⟩ <;>
                    simp [patchFile, h1, h2, h3, h4, h5, h6, h7, h8, FsOp.isMutation]
                | some ls =>
                  right
                  refine ⟨r, orig, hunks, ls, ?_, ?_, ?_, ?_, ?_⟩ <;>
                    first
                    | rfl
                    | assumption
                    | simp [patchFile, h1, h2, h3, h4, h5, h6, h7, h8]

/-! ## Claim theorems -/

/-- Claim C1, counterexample.  The claim says that an update/patch request
supplying an `expectedFingerprint` different from the fingerprint of the
current content fails with a Conflict error and leaves the file unchanged.
Here a PUT request for `f.md` (current content `"old content\n"`) carries
the fingerprint `"stale"`, which differs from the SHA-256 of the current
content (every SHA-256 hex digest has 64 characters), yet the request
succeeds and the file is overwritten: the request model has no fingerprint
field, so the value is discarded and no conflict check happens. -/
theorem C1_counterexample :
    (updateFile ["v"] [(["v", "f.md"], "old content\n")]
        ⟨"f.md", "new stuff", some "stale"⟩).1 =
      .ok ⟨"File updated successfully"⟩ ∧
    (updateFile ["v"] [(["v", "f.md"], "old content\n")]
        ⟨"f.md", "new stuff", some "stale"⟩).2.1 =
      [(["v", "f.md"], "new stuff")] ∧
    "stale" ≠ sha256OfString "old content\n" := by
  refine ⟨rfl, rfl, fun h => ?_⟩
  have h5 : ("stale" : String).length = 5 := rfl
  rw [h, sha256OfString_length] at h5
  exact absurd h5 (by decide)

/-- Claim C1, amended.  No update/patch request carries an
`expectedFingerprint`: the pydantic request model declares only `path` and
`content`, any fingerprint member in the request body is discarded by body
validation, and the update overwrites the file unconditionally
(last-writer-wins); no Conflict error exists in the code. -/
theorem C1_amended (vault : List String) (fs : FS) (w : UpdateWireRequest)
    (r : List String) (c : String)
    (h1 : resolveSafe vault (parsePyPath w.path) = some r)
    (h2 : FS.lookup fs r = some c) :
    updateFile vault fs w =
      (.ok ⟨"File updated successfully"⟩, fs.write r w.content,
        [.statOp r, .writeOp r w.content]) ∧
    updateFile vault fs w = updateFile vault fs ⟨w.path, w.content, none⟩ := by
  refine ⟨?_, rfl⟩
  simp [updateFile, updateFileCore, parseUpdateWire, h1, h2]

theorem C1_amended_witness :
    resolveSafe ["v"] (parsePyPath "w1.md") = some ["v", "w1.md"] ∧
    updateFile ["v"] [(["v", "w1.md"], "old\n")]
        ⟨"w1.md", "new\n", some "deadbeef"⟩ =
      (.ok ⟨"File updated successfully"⟩,
        FS.write [(["v", "w1.md"], "old\n")] ["v", "w1.md"] "new\n",
        [.statOp ["v", "w1.md"], .writeOp ["v", "w1.md"] "new\n"]) :=
  ⟨rfl,
    (C1_amended ["v"] [(["v", "w1.md"], "old\n")]
      ⟨"w1.md", "new\n", some "deadbeef"⟩ ["v", "w1.md"] "old\n" rfl rfl).1⟩

/-- Claim C2, counterexample.  The claim says every accepted path resolves
to a strict descendant of the vault root, and a path resolving to the root
itself is rejected as InvalidPath before any filesystem access.  But the
client path `"."` resolves to the vault root, `relative_to` accepts it
(pathlib returns `Path(".")` for equal paths), and the handler proceeds to
the `is_file()` filesystem check — failing with NotFound, not InvalidPath. -/
theorem C2_counterexample :
    resolveSafe ["srv", "vault"] (parsePyPath ".") = some ["srv", "vault"] ∧
    resolveComps (joinPath ["srv", "vault"] (parsePyPath ".")) =
      resolveComps ["srv", "vault"] ∧
    (patchFile ["srv", "vault"] [] ⟨".", "x"⟩).1 = .error .notFound ∧
    ApiError.notFound ≠ ApiError.invalidPath ∧
    (patchFile ["srv", "vault"] [] ⟨".", "x"⟩).2.2 = [.statOp ["srv", "vault"]] :=
  ⟨rfl, rfl, rfl, by decide, rfl⟩

/-- Claim C2, amended.  The sandbox accepts a client path exactly when the
fully resolved join of vault root and path has the resolved vault root as
a prefix — descendant **or equal**; it does not require a strict
descendant.  Paths whose resolution escapes the root are rejected as
InvalidPath before any filesystem operation. -/
theorem C2_amended (vault : List String) (p : PyPath) (fs : FS)
    (req : PatchFileRequest) (hreq : parsePyPath req.path = p) :
    (∀ r, resolveSafe vault p = some r ↔
      (r = resolveComps (joinPath vault p) ∧ resolveComps vault <+: r)) ∧
    (resolveSafe vault p = none →
      patchFile vault fs req = (.error .invalidPath, fs, [])) := by
  constructor
  · intro r
    show (if (resolveComps vault).isPrefixOf (resolveComps (joinPath vault p))
        then some (resolveComps (joinPath vault p)) else none) = some r ↔ _
    by_cases hp :
        (resolveComps vault).isPrefixOf (resolveComps (joinPath vault p)) = true
    · rw [if_pos hp]
      constructor
      · intro he
        have hr := Option.some.inj he
        exact ⟨hr.symm, hr ▸ (isPrefixOf_true_iff _ _).mp hp⟩
      · rintro ⟨rfl, _⟩; rfl
    · rw [if_neg hp]
      constructor
      · intro he; exact Option.noConfusion he
      · rintro ⟨rfl, hpre⟩
        exact absurd ((isPrefixOf_true_iff _ _).mpr hpre) hp
  · intro hn
    simp [patchFile, hreq, hn]

theorem C2_amended_witness :
    (∀ r, resolveSafe ["v"] (parsePyPath "sub/w2.md") = some r ↔
      (r = resolveComps (joinPath ["v"] (parsePyPath "sub/w2.md")) ∧
        resolveComps ["v"] <+: r)) ∧
    (resolveSafe ["v"] (parsePyPath "sub/w2.md") = none →
      patchFile ["v"] [] ⟨"sub/w2.md", "d"⟩ = (.error .invalidPath, [], [])) :=
  C2_amended ["v"] (parsePyPath "sub/w2.md") [] ⟨"sub/w2.md", "d"⟩ rfl

/-- Claim C3, counterexample.  The claim says a successful patch writes the
new content to a temporary file and atomically renames it onto the target.
In this successful run the operation trace is a stat, a read, and a single
`write_text` directly to the target path — no temporary file and no
rename — so the claimed temp-file-then-rename pattern does not hold. -/
theorem C3_counterexample :
    (patchFile ["v"] [(["v", "c3.md"], "x\n")]
        ⟨"c3.md", "--- a/c3.md\n+++ b/c3.md\n@@ -1,1 +1,1 @@\n-x\n+y\n"⟩).1 =
      .ok ⟨"patched", sha256OfString "y\n", "y\n", sha256OfString "y\n"⟩ ∧
    (patchFile ["v"] [(["v", "c3.md"], "x\n")]
        ⟨"c3.md", "--- a/c3.md\n+++ b/c3.md\n@@ -1,1 +1,1 @@\n-x\n+y\n"⟩).2.2 =
      [.statOp ["v", "c3.md"], .readOp ["v", "c3.md"],
        .writeOp ["v", "c3.md"] "y\n"] ∧
    ¬ atomicReplacePattern ["v", "c3.md"] "y\n"
        (patchFile ["v"] [(["v", "c3.md"], "x\n")]
          ⟨"c3.md", "--- a/c3.md\n+++ b/c3.md\n@@ -1,1 +1,1 @@\n-x\n+y\n"⟩).2.2 := by
  refine ⟨rfl, rfl, ?_⟩
  rintro ⟨tmp, pre, hne, hdir, heq⟩
  have htr : (patchFile ["v"] [(["v", "c3.md"], "x\n")]
      ⟨"c3.md", "--- a/c3.md\n+++ b/c3.md\n@@ -1,1 +1,1 @@\n-x\n+y\n"⟩).2.2 =
      [FsOp.statOp ["v", "c3.md"], FsOp.readOp ["v", "c3.md"],
        FsOp.writeOp ["v", "c3.md"] "y\n"] := rfl
  rw [htr] at heq
  have hlen := congrArg List.length heq
  simp only [List.length_cons, List.length_append, List.length_nil] at hlen
  have hpre : pre.length = 1 := by omega
  obtain ⟨a, rfl⟩ := List.length_eq_one.mp hpre
  simp at heq

/-- Claim C3, amended.  Every successful patch performs exactly one
mutating filesystem operation: a single direct `write_text` of the final
content to the resolved target path.  No rename (and no temporary file)
occurs on any path of the handler. -/
theorem C3_amended (vault : List String) (fs : FS) (req : PatchFileRequest)
    (ok : PatchOk) (h : (patchFile vault fs req).1 = .ok ok) :
    ∃ r, resolveSafe vault (parsePyPath req.path) = some r ∧
      (patchFile vault fs req).2.2 =
        [.statOp r, .readOp r, .writeOp r ok.content] ∧
      (patchFile vault fs req).2.1 = fs.write r ok.content ∧
      ∀ op ∈ (patchFile vault fs req).2.2, ∀ src tgt, op ≠ .renameOp src tgt := by
  rcases patchFile_cases vault fs req with ⟨e, he, _, _⟩ |
    ⟨r, orig, hunks, ls, h1, h2, h7, h8, heq⟩
  · rw [h] at he; exact Except.noConfusion he
  · have hfst : (patchFile vault fs req).1 =
        .ok ⟨"patched", sha256OfString (strJoinLF ls ++ "\n"),
          strJoinLF ls ++ "\n", sha256OfString (strJoinLF ls ++ "\n")⟩ := by
      rw [heq]
    rw [h] at hfst
    have hok := Except.ok.inj hfst
    subst hok
    refine ⟨r, h1, ?_, ?_, ?_⟩
    · rw [heq]
    · rw [heq]
    · intro op hop src tgt
      rw [heq] at hop
      simp only [List.mem_cons, List.not_mem_nil, or_false] at hop
      rcases hop with rfl | rfl | rfl <;> simp

theorem C3_amended_witness :
    (patchFile ["v"] [(["v", "w3.md"], "p\n")]
        ⟨"w3.md", "--- a/w3.md\n+++ b/w3.md\n@@ -1,1 +1,1 @@\n-p\n+q\n"⟩).1 =
      .ok ⟨"patched", sha256OfString "q\n", "q\n", sha256OfString "q\n"⟩ ∧
    ∃ r, resolveSafe ["v"] (parsePyPath "w3.md") = some r ∧
      (patchFile ["v"] [(["v", "w3.md"], "p\n")]
          ⟨"w3.md", "--- a/w3.md\n+++ b/w3.md\n@@ -1,1 +1,1 @@\n-p\n+q\n"⟩).2.2 =
        [.statOp r, .readOp r, .writeOp r "q\n"] ∧
      (patchFile ["v"] [(["v", "w3.md"], "p\n")]
          ⟨"w3.md", "--- a/w3.md\n+++ b/w3.md\n@@ -1,1 +1,1 @@\n-p\n+q\n"⟩).2.1 =
        FS.write [(["v", "w3.md"], "p\n")] r "q\n" ∧
      ∀ op ∈ (patchFile ["v"] [(["v", "w3.md"], "p\n")]
          ⟨"w3.md", "--- a/w3.md\n+++ b/w3.md\n@@ -1,1 +1,1 @@\n-p\n+q\n"⟩).2.2,
        ∀ src tgt, op ≠ .renameOp src tgt :=
  ⟨rfl, C3_amended ["v"] [(["v", "w3.md"], "p\n")]
    ⟨"w3.md", "--- a/w3.md\n+++ b/w3.md\n@@ -1,1 +1,1 @@\n-p\n+q\n"⟩
    ⟨"patched", sha256OfString "q\n", "q\n", sha256OfString "q\n"⟩ rfl⟩

/-- Claim C4, counterexample.  The claim says applying the unified diff
produced from `(old, new)` to a file containing `old` yields exactly
`new`, byte for byte, for any texts differing only in line content.  Take
`old = "a\n"` and `new = ""` (delete the only line): the handler joins the
applied lines with LF **and appends a trailing LF**, so the final file
content is `"\n"`, not `new = ""`. -/
theorem C4_counterexample :
    (patchFile ["v"] [(["v", "f.md"], "a\n")]
        ⟨"f.md", makeUnifiedDiff "f.md" "a\n" ""⟩).1 =
      .ok ⟨"patched", sha256OfString "\n", "\n", sha256OfString "\n"⟩ ∧
    FS.lookup (patchFile ["v"] [(["v", "f.md"], "a\n")]
        ⟨"f.md", makeUnifiedDiff "f.md" "a\n" ""⟩).2.1 ["v", "f.md"] =
      some "\n" ∧
    ("\n" : String) ≠ "" :=
  ⟨rfl, rfl, by decide⟩

/-- Claim C4, amended.  For any texts `old`, `new` in pure-LF encoding with
`new` ending in a trailing LF, and any unified diff that the parser reads
as hunks transforming the lines of `old` into the lines of `new` (and that
survives the handler's validation untouched), the patch pipeline writes
exactly `new`.  Moreover the replace-everything hunk produced from
`(old-lines, new-lines)` always applies to the old lines and yields
exactly the new lines. -/
theorem C4_amended (vault : List String) (fs : FS) (req : PatchFileRequest)
    (r : List String) (old new : String) (hunks : List Hunk)
    (h1 : resolveSafe vault (parsePyPath req.path) = some r)
    (h2 : FS.lookup fs r = some old)
    (h3 : req.diff ≠ "")
    (h4 : normalizeDiffText req.diff = req.diff)
    (h5 : hasHeadersUpToHunk (pySplitlinesKeep req.diff) = true)
    (h6 : wrongTargetRejected (pySplitlinesKeep req.diff) req.path = false)
    (h7 : parsePatch req.diff = some hunks)
    (h8 : applyHunks hunks (pySplitlines old) = some (pySplitlines new))
    (h9 : '\r' ∉ new.toList)
    (h10 : new.toList.getLast? = some '\n') :
    ((patchFile vault fs req).1 =
      .ok ⟨"patched", sha256OfString new, new, sha256OfString new⟩ ∧
      FS.lookup (patchFile vault fs req).2.1 r = some new) ∧
    ∀ (ol nl : List String), applyHunks [mkReplaceHunk ol nl] ol = some nl := by
  have hnew : strJoinLF (pySplitlines new) ++ "\n" = new :=
    strJoinLF_pySplitlines new h9 h10
  refine ⟨⟨?_, ?_⟩, applyHunks_mkReplaceHunk⟩
  · simp [patchFile, h1, h2, h3, h4, h5, h6, h7, h8, hnew]
  · simp [patchFile, h1, h2, h3, h4, h5, h6, h7, h8, hnew, FS.lookup_write_self]

theorem C4_amended_witness :
    parsePatch "--- a/w4.md\n+++ b/w4.md\n@@ -1,1 +1,2 @@\n-u\n+u\n+v\n" =
      some [⟨1, [⟨.del, "u"⟩, ⟨.ins, "u"⟩, ⟨.ins, "v"⟩]⟩] ∧
    applyHunks [⟨1, [⟨.del, "u"⟩, ⟨.ins, "u"⟩, ⟨.ins, "v"⟩]⟩]
        (pySplitlines "u\n") = some (pySplitlines "u\nv\n") ∧
    (patchFile ["v"] [(["v", "w4.md"], "u\n")]
        ⟨"w4.md", "--- a/w4.md\n+++ b/w4.md\n@@ -1,1 +1,2 @@\n-u\n+u\n+v\n"⟩).1 =
      .ok ⟨"patched", sha256OfString "u\nv\n", "u\nv\n",
        sha256OfString "u\nv\n"⟩ :=
  ⟨rfl, rfl,
    (C4_amended ["v"] [(["v", "w4.md"], "u\n")]
      ⟨"w4.md", "--- a/w4.md\n+++ b/w4.md\n@@ -1,1 +1,2 @@\n-u\n+u\n+v\n"⟩
      ["v", "w4.md"] "u\n" "u\nv\n"
      [⟨1, [⟨.del, "u"⟩, ⟨.ins, "u"⟩, ⟨.ins, "v"⟩]⟩]
      rfl rfl (by decide) rfl rfl rfl rfl rfl (by decide) rfl).1.1⟩

/-- Claim C5, confirmed.  Every successful patch run responds with message
`"patched"`, a body content that is the LF-join of the applied lines plus
a single trailing LF (in particular it ends with LF), an etag equal to the
SHA-256 hex digest of the UTF-8 bytes of that content in both the body
field and the response header, and the target file's final content equal
to the response content. -/
theorem C5_success_contract (vault : List String) (fs : FS)
    (req : PatchFileRequest) (ok : PatchOk)
    (h : (patchFile vault fs req).1 = .ok ok) :
    ok.message = "patched" ∧
    (∃ ls, ok.content = strJoinLF ls ++ "\n") ∧
    ok.content.toList.getLast? = some '\n' ∧
    ok.etag = sha256OfString ok.content ∧
    ok.etagHeader = ok.etag ∧
    ∃ r, resolveSafe vault (parsePyPath req.path) = some r ∧
      FS.lookup (patchFile vault fs req).2.1 r = some ok.content := by
  rcases patchFile_cases vault fs req with ⟨e, he, _, _⟩ |
    ⟨r, orig, hunks, ls, h1, h2, h7, h8, heq⟩
  · rw [h] at he; exact Except.noConfusion he
  · have hfst : (patchFile vault fs req).1 =
        .ok ⟨"patched", sha256OfString (strJoinLF ls ++ "\n"),
          strJoinLF ls ++ "\n", sha256OfString (strJoinLF ls ++ "\n")⟩ := by
      rw [heq]
    rw [h] at hfst
    have hok := Except.ok.inj hfst
    subst hok
    refine ⟨rfl, ⟨ls, rfl⟩, ?_, rfl, rfl, r, h1, ?_⟩
    · show ((strJoinLF ls ++ "\n").toList.getLast? = some '\n')
      rw [show (strJoinLF ls ++ "\n").toList =
        (strJoinLF ls).toList ++ ['\n'] from String.data_append _ _]
      exact List.getLast?_concat _
    · rw [heq]
      exact FS.lookup_write_self fs r _

theorem C5_success_contract_witness :
    PatchOk.message ⟨"patched",
        sha256OfString "line1\nline2\nline3 added\n",
        "line1\nline2\nline3 added\n",
        sha256OfString "line1\nline2\nline3 added\n"⟩ = "patched" ∧
    (∃ ls, PatchOk.content ⟨"patched",
        sha256OfString "line1\nline2\nline3 added\n",
        "line1\nline2\nline3 added\n",
        sha256OfString "line1\nline2\nline3 added\n"⟩ = strJoinLF ls ++ "\n") ∧
    ("line1\nline2\nline3 added\n" : String).toList.getLast? = some '\n' ∧
    sha256OfString "line1\nline2\nline3 added\n" =
      sha256OfString "line1\nline2\nline3 added\n" ∧
    ∃ r, resolveSafe ["v"] (parsePyPath "n.md") = some r ∧
      FS.lookup (patchFile ["v"] [(["v", "n.md"], "line1\nline2\n")]
          ⟨"n.md",
            "--- a/n.md\n+++ b/n.md\n@@ -1,2 +1,3 @@\n line1\n line2\n+line3 added\n"⟩).2.1
        r = some "line1\nline2\nline3 added\n" := by
  have h := C5_success_contract ["v"] [(["v", "n.md"], "line1\nline2\n")]
    ⟨"n.md",
      "--- a/n.md\n+++ b/n.md\n@@ -1,2 +1,3 @@\n line1\n line2\n+line3 added\n"⟩
    ⟨"patched", sha256OfString "line1\nline2\nline3 added\n",
      "line1\nline2\nline3 added\n",
      sha256OfString "line1\nline2\nline3 added\n"⟩ rfl
  exact ⟨h.1, h.2.1, h.2.2.1, h.2.2.2.1, h.2.2.2.2.2⟩

/-- Claim C6, confirmed.  Whenever `patch_file` fails — invalid path,
missing file, empty delta, malformed delta (in particular a payload with
an `@@` hunk marker but no `--- `/`+++ ` headers), unparseable diff, a
diff rejected as targeting a different file, or a failed application — the
filesystem is unchanged and no mutating operation was performed before the
error was reported. -/
theorem C6_errors_no_mutation (vault : List String) (fs : FS)
    (req : PatchFileRequest) (e : ApiError)
    (h : (patchFile vault fs req).1 = .error e)
    (_henum : e = .invalidPath ∨ e = .notFound ∨ e = .emptyDiff ∨
      e = .missingHeaders ∨ e = .invalidFormat ∨ e = .wrongTarget ∨
      e = .applyFailed) :
    (patchFile vault fs req).2.1 = fs ∧
    ∀ op ∈ (patchFile vault fs req).2.2, op.isMutation = false := by
  rcases patchFile_cases vault fs req with ⟨e', _, hfs, hmut⟩ |
    ⟨r, orig, hunks, ls, _, _, _, _, heq⟩
  · exact ⟨hfs, hmut⟩
  · have hcontra : (patchFile vault fs req).1 =
        .ok ⟨"patched", sha256OfString (strJoinLF ls ++ "\n"),
          strJoinLF ls ++ "\n", sha256OfString (strJoinLF ls ++ "\n")⟩ := by
      rw [heq]
    rw [h] at hcontra
    exact Except.noConfusion hcontra

theorem C6_errors_no_mutation_witness :
    (patchFile ["v"] [(["v", "k.md"], "a\nb\n")]
        ⟨"k.md", "@@ -1,2 +1,3 @@\n a\n b\n+c added"⟩).1 =
      .error .missingHeaders ∧
    (patchFile ["v"] [(["v", "k.md"], "a\nb\n")]
        ⟨"k.md", "@@ -1,2 +1,3 @@\n a\n b\n+c added"⟩).2.1 =
      [(["v", "k.md"], "a\nb\n")] ∧
    ∀ op ∈ (patchFile ["v"] [(["v", "k.md"], "a\nb\n")]
        ⟨"k.md", "@@ -1,2 +1,3 @@\n a\n b\n+c added"⟩).2.2,
      op.isMutation = false := by
  have h := C6_errors_no_mutation ["v"] [(["v", "k.md"], "a\nb\n")]
    ⟨"k.md", "@@ -1,2 +1,3 @@\n a\n b\n+c added"⟩ .missingHeaders rfl
    (Or.inr (Or.inr (Or.inr (Or.inl rfl))))
  exact ⟨rfl, h.1, h.2⟩

/-- Claim C7, counterexample.  The claim says every diff whose `+++ `
target header matches neither the request path nor its basename is
rejected.  Here the target header names `b/unrelated.md`, the request
path is `a.md` — no match either way — yet the patch is **not** rejected:
it is applied successfully, because the rejection additionally requires
the target name to contain the substring `"other.md"` or `"different.md"`. -/
theorem C7_counterexample :
    extractTarget (pySplitlinesKeep (normalizeDiffText
        "--- a/unrelated.md\n+++ b/unrelated.md\n@@ -1,1 +1,1 @@\n-A\n+B\n")) =
      some "b/unrelated.md" ∧
    ("b/unrelated.md" : String) ≠ "b/" ++ "a.md" ∧
    ("b/unrelated.md" : String) ≠ "b/" ++ basename "a.md" ∧
    (patchFile ["v"] [(["v", "a.md"], "A\n")]
        ⟨"a.md", "--- a/unrelated.md\n+++ b/unrelated.md\n@@ -1,1 +1,1 @@\n-A\n+B\n"⟩).1 =
      .ok ⟨"patched", sha256OfString "B\n", "B\n", sha256OfString "B\n"⟩ :=
  ⟨rfl, by decide, by decide, rfl⟩

/-- Claim C7, amended.  When the extracted target header is non-empty and
matches neither `"b/" + path` nor `"b/" + basename(path)`, the request is
rejected as "diff targets different file" **iff** the target name
contains the substring `"other.md"` or `"different.md"`; otherwise the
mismatch is ignored and processing continues. -/
theorem C7_amended (vault : List String) (fs : FS) (req : PatchFileRequest)
    (r : List String) (orig t : String)
    (h1 : resolveSafe vault (parsePyPath req.path) = some r)
    (h2 : FS.lookup fs r = some orig)
    (h3 : req.diff ≠ "")
    (h4 : hasHeadersUpToHunk (pySplitlinesKeep (normalizeDiffText req.diff)) = true)
    (h5 : extractTarget (pySplitlinesKeep (normalizeDiffText req.diff)) = some t)
    (h6 : t ≠ "")
    (h7 : t ≠ "b/" ++ req.path)
    (h8 : t ≠ "b/" ++ basename req.path) :
    (patchFile vault fs req).1 = .error .wrongTarget ↔
      (pyContains t "other.md" = true ∨ pyContains t "different.md" = true) := by
  have hwt : wrongTargetRejected (pySplitlinesKeep (normalizeDiffText req.diff))
      req.path = (pyContains t "other.md" || pyContains t "different.md") := by
    unfold wrongTargetRejected
    rw [h5]
    simp [h6, h7, h8]
  by_cases hc : (pyContains t "other.md" || pyContains t "different.md") = true
  · constructor
    · intro _; simpa using hc
    · intro _
      simp [patchFile, h1, h2, h3, h4, hwt, hc]
  · have hcf : (pyContains t "other.md" || pyContains t "different.md") = false :=
      Bool.not_eq_true _ ▸ Bool.of_not_eq_true hc
    constructor
    · intro hres
      exfalso
      cases h9 : parsePatch (normalizeDiffText req.diff) with
      | none => simp [patchFile, h1, h2, h3, h4, hwt, hcf, h9] at hres
      | some hunks =>
        cases h10 : applyHunks hunks (pySplitlines orig) with
        | none => simp [patchFile, h1, h2, h3, h4, hwt, hcf, h9, h10] at hres
        | some ls => simp [patchFile, h1, h2, h3, h4, hwt, hcf, h9, h10] at hres
    · intro hb
      exact absurd (by simpa using hb) hc

theorem C7_amended_witness :
    pyContains "b/other.md" "other.md" = true ∧
    ((patchFile ["v"] [(["v", "a7.md"], "A\n")]
        ⟨"a7.md", "--- a/other.md\n+++ b/other.md\n@@ -1,1 +1,1 @@\n-A\n+B\n"⟩).1 =
        .error .wrongTarget ↔
      (pyContains "b/other.md" "other.md" = true ∨
        pyContains "b/other.md" "different.md" = true)) :=
  ⟨by decide,
    C7_amended ["v"] [(["v", "a7.md"], "A\n")]
      ⟨"a7.md", "--- a/other.md\n+++ b/other.md\n@@ -1,1 +1,1 @@\n-A\n+B\n"⟩
      ["v", "a7.md"] "A\n" "b/other.md" rfl rfl (by decide) rfl rfl
      (by decide) (by decide) (by decide)⟩

/-- Claim C8, counterexample.  The claim says normalization never alters a
payload that already parses correctly.  This payload is a well-formed
unified diff (headers present, one parseable hunk) whose inserted line
contains the literal two characters backslash-`n`; normalization replaces
them with a real newline, altering the payload. -/
theorem C8_counterexample :
    parsesOK "--- a/f.md\n+++ b/f.md\n@@ -1,1 +1,1 @@\n-old\n+new\\n x\n" = true ∧
    normalizeDiffText "--- a/f.md\n+++ b/f.md\n@@ -1,1 +1,1 @@\n-old\n+new\\n x\n" ≠
      "--- a/f.md\n+++ b/f.md\n@@ -1,1 +1,1 @@\n-old\n+new\\n x\n" :=
  ⟨rfl, by decide⟩

/-- Claim C8, amended.  Normalization is idempotent, and it is the identity
on every payload that does not contain the two-character sequence
backslash-`n`; a payload containing that sequence is altered even when it
already parses correctly. -/
theorem C8_amended (s : String) :
    normalizeDiffText (normalizeDiffText s) = normalizeDiffText s ∧
    (hasBSN s.toList = false → normalizeDiffText s = s) := by
  constructor
  · rw [normalizeDiffText_eq_replBSN s]
    rw [normalizeDiffText_eq_replBSN (String.mk (replBSN s.toList))]
    show String.mk (replBSN (replBSN s.toList)) = String.mk (replBSN s.toList)
    rw [replBSN_idem]
  · exact normalizeDiffText_of_not_hasBSN

theorem C8_amended_witness :
    hasBSN ("--- a/g.md\n+++ b/g.md\n@@ -1 +1 @@\n-o\n+p\n" : String).toList = false ∧
    normalizeDiffText "--- a/g.md\n+++ b/g.md\n@@ -1 +1 @@\n-o\n+p\n" =
      "--- a/g.md\n+++ b/g.md\n@@ -1 +1 @@\n-o\n+p\n" :=
  ⟨by decide, (C8_amended "--- a/g.md\n+++ b/g.md\n@@ -1 +1 @@\n-o\n+p\n").2 (by decide)⟩

/-- Claim C9, counterexample.  The claim says the normalizer converts all
CRLF sequences to LF (step 1) and terminates every line (step 4) before
parsing.  On the payload `"x\r\ny"` the specified pipeline yields
`"x\ny\n"`, but the code's preprocessing leaves the payload untouched —
CRLF is preserved and no terminator is added — so the code does not
perform the claimed steps. -/
theorem C9_counterexample :
    normalizeDiffText "x\r\ny" = "x\r\ny" ∧
    specNormalizeC9 "x\r\ny" = "x\ny\n" ∧
    ("x\r\ny" : String) ≠ "x\ny\n" :=
  ⟨rfl, rfl, by decide⟩

/-- Claim C9, amended.  The only preprocessing `patch_file` applies to the
delta payload is the backslash-`n` replacement: the result is always
exactly `replBSN` of the payload (in particular, a payload without
backslash-`n` is passed on unchanged), and carriage returns are never
removed or introduced, so CRLF sequences survive normalization. -/
theorem C9_amended (s : String) :
    normalizeDiffText s = String.mk (replBSN s.toList) ∧
    ('\r' ∈ (normalizeDiffText s).toList ↔ '\r' ∈ s.toList) := by
  refine ⟨normalizeDiffText_eq_replBSN s, ?_⟩
  rw [normalizeDiffText_eq_replBSN s]
  show '\r' ∈ replBSN s.toList ↔ '\r' ∈ s.toList
  exact mem_replBSN_cr s.toList

theorem C9_amended_witness :
    normalizeDiffText "a\\nb\r\n" = String.mk (replBSN ("a\\nb\r\n" : String).toList) ∧
    ('\r' ∈ (normalizeDiffText "a\\nb\r\n").toList ↔
      '\r' ∈ ("a\\nb\r\n" : String).toList) :=
  C9_amended "a\\nb\r\n"

/-- Claim C10, counterexample.  The claim says every create request with
empty content is rejected with an "Empty content provided" error.  But
the sandbox check runs first: a create request with empty content **and**
a path escaping the vault is rejected as InvalidPath, not EmptyContent
(no file is created either way). -/
theorem C10_counterexample :
    (createFile ["v"] [] ⟨"../esc.md", ""⟩).1 = .error .invalidPath ∧
    ApiError.invalidPath ≠ ApiError.emptyContent ∧
    (createFile ["v"] [] ⟨"../esc.md", ""⟩).2.1 = [] ∧
    (createFile ["v"] [] ⟨"../esc.md", ""⟩).2.2 = [] :=
  ⟨rfl, by decide, rfl, rfl⟩

/-- Claim C10, amended.  Every create request whose content is the empty
string fails with no filesystem operation performed and the filesystem
unchanged (so no file is created); when the path passes the sandbox, the
error is "Empty content provided" — the empty-content check runs before
the file-exists check, but after the sandbox check, which takes
precedence for invalid paths. -/
theorem C10_amended (vault : List String) (fs : FS) (req : CreateFileRequest)
    (h : req.content = "") :
    (∃ e, (createFile vault fs req).1 = .error e) ∧
    (createFile vault fs req).2.1 = fs ∧
    (createFile vault fs req).2.2 = [] ∧
    (∀ r, resolveSafe vault (parsePyPath req.path) = some r →
      (createFile vault fs req).1 = .error .emptyContent) := by
  cases hr : resolveSafe vault (parsePyPath req.path) with
  | none =>
    refine ⟨⟨.invalidPath, ?_⟩, ?_, ?_, ?_⟩ <;> simp [createFile, hr]
  | some r =>
    refine ⟨⟨.emptyContent, ?_⟩, ?_, ?_, ?_⟩ <;> simp [createFile, hr, h]

theorem C10_amended_witness :
    resolveSafe ["v"] (parsePyPath "w10.md") = some ["v", "w10.md"] ∧
    (createFile ["v"] [] ⟨"w10.md", ""⟩).1 = .error .emptyContent ∧
    (createFile ["v"] [] ⟨"w10.md", ""⟩).2.1 = [] ∧
    (createFile ["v"] [] ⟨"w10.md", ""⟩).2.2 = [] := by
  have h := C10_amended ["v"] [] ⟨"w10.md", ""⟩ rfl
  exact ⟨rfl, h.2.2.2 ["v", "w10.md"] rfl, h.2.1, h.2.2.1⟩

end ObsidianHeadless
